import Mathlib

/-!
Verification of the elysia-openapi plugin core: the exclusion store, the
route filter, the document assembly and the spec-endpoint cache, shallowly
embedded from src/src/index.ts.  The route-to-schema converter
(toOpenAPISchema, living in the repository's src/openapi.ts) is not part
of the provided sources; where a claim depends on it, the corresponding
definition is modelled from the specification and marked as such.
-/

/-- Entry of the exclusion path list: a literal path string or a pattern
matcher, the latter represented by its source and flags. -/
inductive PathEntry where
  | lit : String → PathEntry
  | pat : String → String → PathEntry
deriving DecidableEq

/-- Value of the paths field of an exclusion policy: a single scalar entry
or an array of entries, mirroring the type string | RegExp | (string | RegExp)[]. -/
inductive PathsField where
  | one : PathEntry → PathsField
  | many : List PathEntry → PathsField
deriving DecidableEq

/-- Exclusion policy record with three independent optional fields, mirroring
the exclude configuration of the plugin. -/
structure Exclude where
  paths : Option PathsField := none
  tags : Option (List String) := none
  methods : Option (List String) := none
deriving DecidableEq

/-- Route as the core reads it from the serving framework: method, path,
tag list and the hide flag of its detail metadata. -/
structure Route where
  method : String
  path : String
  tags : List String
  hide : Bool
deriving DecidableEq

/-- Tag object of the static documentation (name plus an opaque description). -/
structure TagObj where
  name : String
  descr : Option String := none
deriving DecidableEq

/-- Fully assembled info object of the generated document. -/
structure Info where
  title : String
  description : String
  version : String
deriving DecidableEq

/-- Static info fragment supplied at configuration time; absent fields fall
back to the generated defaults. -/
structure InfoStatic where
  title : Option String := none
  description : Option String := none
  version : Option String := none
deriving DecidableEq

/-- Path-item object: mapping from HTTP method to the operation, which we
identify with the route it was generated from. -/
abbrev PathItem := List (String × Route)

/-- Static documentation object supplied at configuration time.  Only the
fields the assembler reads are modelled; absent JavaScript fields are
represented by the empty list where spreading undefined equals spreading
the empty object. -/
structure Documentation where
  info : InfoStatic := {}
  tags : Option (List TagObj) := none
  paths : List (String × PathItem) := []
  componentsSchemas : List (String × String) := []
deriving DecidableEq

/-- Assembled OpenAPI document (the fields the claims are about). -/
structure OpenDoc where
  openapi : String
  tags : Option (List TagObj)
  info : Info
  paths : List (String × PathItem)
  schemas : List (String × String)
deriving DecidableEq

/-- JavaScript object key lookup on an association list: the first entry
with the key wins. -/
def olookup {V : Type} : List (String × V) → String → Option V
  | [], _ => none
  | p :: ps, k => if p.1 == k then some p.2 else olookup ps k

/-- JavaScript object key update: an existing key keeps its position and
receives the new value, a new key is appended at the end. -/
def oset {V : Type} (l : List (String × V)) (k : String) (v : V) : List (String × V) :=
  if (olookup l k).isSome then l.map (fun p => if p.1 == k then (k, v) else p)
  else l ++ [(k, v)]

/-- First defined option wins. -/
def ofirst {V : Type} : Option V → Option V → Option V
  | some v, _ => some v
  | none, b => b

/-- JavaScript object spread of two objects: keys of the first in their
order with values overridden by the second, then the new keys of the second. -/
def omerge {V : Type} (a b : List (String × V)) : List (String × V) :=
  a.map (fun p => (p.1, (olookup b p.1).getD p.2)) ++
    b.filter (fun p => (olookup a p.1).isNone)

/-- Lookup of the operation stored for a path key and a method. -/
def olookup2 {V : Type} (l : List (String × List (String × V))) (k m : String) : Option V :=
  match olookup l k with
  | none => none
  | some item => olookup item m

/-- Opening brace character, used by the path translation. -/
def lbrace : Char := Char.ofNat 123

/-- Closing brace character, used by the path translation. -/
def rbrace : Char := Char.ofNat 125

/-- Splitting of a character list on the slash separator. -/
def splitOnSlash : List Char → List (List Char)
  | [] => [[]]
  | c :: rest =>
    match splitOnSlash rest with
    | [] => if c = '/' then [[], []] else [[c]]
    | s :: ss => if c = '/' then [] :: s :: ss else (c :: s) :: ss

/-- Modelled from the spec: a path segment starting with a colon (a named
parameter) is translated into the OpenAPI brace-parameter syntax. -/
def segToOpenAPI (s : List Char) : List Char :=
  match s with
  | ':' :: name => lbrace :: (name ++ [rbrace])
  | other => other

/-- Joining of segments with the slash separator. -/
def joinSlash : List (List Char) → List Char
  | [] => []
  | [s] => s
  | s :: ss => s ++ '/' :: joinSlash ss

/-- Modelled from the spec: the Schema Converter (toOpenAPISchema, not under
src/) derives the path-item key by translating named-parameter syntax into
the OpenAPI brace-parameter syntax. -/
def toOpenAPIPath (p : String) : String :=
  String.mk (joinSlash ((splitOnSlash p.data).map segToOpenAPI))

/-- Character list a leads the character list b. -/
def leadsWith : List Char → List Char → Bool
  | [], _ => true
  | _ :: _, [] => false
  | a :: as, b :: bs => a == b && leadsWith as bs

/-- String a is an initial segment of string b. -/
def strLeads (a b : String) : Bool := leadsWith a.data b.data

/-- Lower-casing of a string, used for the case-insensitive method match. -/
def lowerStr (s : String) : String := String.mk (s.data.map Char.toLower)

/-- Modelled from the spec: path dimension of the Route Filter.  An absent
field matches nothing; an entry matches if it is a literal equal to the
route's path or a pattern matcher accepting it, the latter decided by the
abstract matcher pm taking source, flags and the candidate path. -/
def exPathsMatch (pm : String → String → String → Bool) (ex : Option Exclude) (p : String) : Bool :=
  match ex.bind (fun e => e.paths) with
  | none => false
  | some (.one e) =>
    match e with
    | .lit s => s == p
    | .pat src flags => pm src flags p
  | some (.many l) =>
    l.any (fun e =>
      match e with
      | .lit s => s == p
      | .pat src flags => pm src flags p)

/-- Modelled from the spec: tag dimension of the Route Filter, any-of over
the route's tags. -/
def exTagsMatch (ex : Option Exclude) (tags : List String) : Bool :=
  ((ex.bind (fun e => e.tags)).getD []).any (fun t => tags.contains t)

/-- Modelled from the spec: method dimension of the Route Filter,
case-insensitive membership. -/
def exMethodsMatch (ex : Option Exclude) (method : String) : Bool :=
  ((ex.bind (fun e => e.methods)).getD []).any (fun m => lowerStr m == lowerStr method)

/-- Modelled from the spec: the Route Filter (the per-route decision of
toOpenAPISchema, not under src/).  It evaluates, in order, reserved-prefix
self-exclusion against the reserved path list rsv, the route's own hide
flag, path match, tag match and case-insensitive method match,
short-circuiting on the first exclusion; no match on any dimension means
the route is included. -/
def routeFilter (pm : String → String → String → Bool) (rsv : List String)
    (ex : Option Exclude) (r : Route) : Bool :=
  if rsv.any (fun p => strLeads p r.path) then false
  else if r.hide then false
  else if exPathsMatch pm ex r.path then false
  else if exTagsMatch ex r.tags then false
  else if exMethodsMatch ex r.method then false
  else true

/-- Document key of a route: translated path together with the method. -/
def routeKey (r : Route) : String × String := (toOpenAPIPath r.path, r.method)

/-- Modelled from the spec: one step of the Schema Converter, inserting an
included route into the path-item mapping; a later registration of the same
path and method silently overwrites the earlier one. -/
def convStep (pm : String → String → String → Bool) (rsv : List String)
    (ex : Option Exclude) (acc : List (String × PathItem)) (r : Route) :
    List (String × PathItem) :=
  if routeFilter pm rsv ex r then
    oset acc (toOpenAPIPath r.path) (oset ((olookup acc (toOpenAPIPath r.path)).getD []) r.method r)
  else acc

/-- Modelled from the spec: the paths object produced by the Schema
Converter for a route collection, in registration order. -/
def toOpenAPISchemaPaths (pm : String → String → String → Bool) (rsv : List String)
    (ex : Option Exclude) (routes : List Route) : List (String × PathItem) :=
  routes.foldl (convStep pm rsv ex) []

/-- Closure state of the plugin from src/src/index.ts: the route count
observed by the cache, the cached document and the current exclusion policy
(the variables totalRoutes, cachedSchema and currentExclude). -/
structure PluginState where
  totalRoutes : Nat
  cachedSchema : Option OpenDoc
  currentExclude : Option Exclude
deriving DecidableEq

/-- invalidateCache from src/src/index.ts: drops the cached document and
resets the stored route count. -/
def invalidateCache (s : PluginState) : PluginState :=
  { s with cachedSchema := none, totalRoutes := 0 }

/-- JavaScript truthiness of the paths field: undefined and the empty
string scalar are falsy; arrays (even empty ones) and pattern matchers are
truthy. -/
def pathsTruthy : Option PathsField → Bool
  | none => false
  | some (.one (.lit s)) => !(s == "")
  | some (.one (.pat _ _)) => true
  | some (.many _) => true

/-- Normalisation used by addExcludedPaths: an array is kept as is, a truthy
scalar becomes a one-element list and a falsy value becomes the empty list,
mirroring Array.isArray(p) ? p : p ? [p] : []. -/
def pathsToList : Option PathsField → List PathEntry
  | some (.many l) => l
  | some (.one e) => if pathsTruthy (some (.one e)) then [e] else []
  | none => []

/-- Equality used by removeExcludedPaths: structural comparison of source
and flags between two pattern matchers, strict equality otherwise. -/
def entryEq : PathEntry → PathEntry → Bool
  | .pat s f, .pat t g => s == t && f == g
  | .lit a, .lit b => a == b
  | _, _ => false

/-- setExclusion from src/src/index.ts: replaces the policy with a shallow
copy of the argument (at the level of values the spread is the identity;
its reference-level consequences are modelled separately below) and always
invalidates the cache. -/
def setExclusion (newExclude : Option Exclude) (s : PluginState) : PluginState :=
  invalidateCache { s with currentExclude := newExclude }

/-- addExcludedPaths from src/src/index.ts: creates the policy record when
absent, normalises the prior paths value to a list and appends the given
values; always invalidates the cache. -/
def addExcludedPaths (paths : List PathEntry) (s : PluginState) : PluginState :=
  let ex := s.currentExclude.getD {}
  let currentPaths := pathsToList ex.paths
  invalidateCache
    { s with currentExclude := some { ex with paths := some (.many (currentPaths ++ paths)) } }

/-- removeExcludedPaths from src/src/index.ts: a falsy paths value is a
complete no-op; otherwise every entry structurally equal to one of the given
values is removed and the cache is invalidated. -/
def removeExcludedPaths (paths : List PathEntry) (s : PluginState) : PluginState :=
  match s.currentExclude with
  | none => s
  | some ex =>
    match ex.paths with
    | none => s
    | some f =>
      if pathsTruthy (some f) then
        invalidateCache
          { s with currentExclude := some { ex with paths := some (.many
              ((match f with | .many l => l | .one e => [e]).filter
                (fun p => !(paths.any (fun v => entryEq p v))))) } }
      else s

/-- addExcludedTags from src/src/index.ts: creates the policy record when
absent and appends the given tags to the (possibly absent) tag list; always
invalidates the cache. -/
def addExcludedTags (tags : List String) (s : PluginState) : PluginState :=
  let ex := s.currentExclude.getD {}
  invalidateCache
    { s with currentExclude := some { ex with tags := some (ex.tags.getD [] ++ tags) } }

/-- removeExcludedTags from src/src/index.ts: an absent tag list is a
complete no-op; otherwise every occurrence of a given tag is removed and
the cache is invalidated. -/
def removeExcludedTags (tags : List String) (s : PluginState) : PluginState :=
  match s.currentExclude with
  | none => s
  | some ex =>
    match ex.tags with
    | none => s
    | some cur =>
      invalidateCache
        { s with currentExclude := some { ex with tags := some (cur.filter (fun t => !(tags.contains t))) } }

/-- addExcludedMethods from src/src/index.ts: creates the policy record when
absent and appends the given methods; always invalidates the cache. -/
def addExcludedMethods (methods : List String) (s : PluginState) : PluginState :=
  let ex := s.currentExclude.getD {}
  invalidateCache
    { s with currentExclude := some { ex with methods := some (ex.methods.getD [] ++ methods) } }

/-- removeExcludedMethods from src/src/index.ts: an absent method list is a
complete no-op; otherwise every occurrence of a given method is removed and
the cache is invalidated. -/
def removeExcludedMethods (methods : List String) (s : PluginState) : PluginState :=
  match s.currentExclude with
  | none => s
  | some ex =>
    match ex.methods with
    | none => s
    | some cur =>
      invalidateCache
        { s with currentExclude := some { ex with methods := some (cur.filter (fun m => !(methods.contains m))) } }

/-- getExclusion from src/src/index.ts: returns a shallow copy of the
current policy or undefined; at the level of values the spread is the
identity. -/
def getExclusion (s : PluginState) : Option Exclude := s.currentExclude

/-- toFullSchema from src/src/index.ts: merges the converter output with the
static documentation object.  The tag list is the static list, filtered when
the policy has a tag list; info fields fall back to the generated defaults;
static paths and static component schemas override the generated ones on
key collision. -/
def toFullSchema (documentation : Documentation) (currentExclude : Option Exclude)
    (paths : List (String × PathItem)) (schemas : List (String × String)) : OpenDoc :=
  { openapi := "3.0.3"
  , tags :=
      match currentExclude.bind (fun e => e.tags) with
      | none => documentation.tags
      | some exTags => documentation.tags.map (fun l => l.filter (fun t => !(exTags.contains t.name)))
  , info :=
      { title := documentation.info.title.getD ("Elysia Documentation")
      , description := documentation.info.description.getD ("Development documentation")
      , version := documentation.info.version.getD ("0.0.0") }
  , paths := omerge paths documentation.paths
  , schemas := omerge schemas documentation.componentsSchemas }

/-- Result of one spec-endpoint read: the returned document (none when the
build threw), the state afterwards and an observability marker that is true
exactly when the read went down the rebuild branch. -/
structure ReadOut where
  doc : Option OpenDoc
  state : PluginState
  rebuilt : Bool
deriving DecidableEq

/-- openAPISchema handler from src/src/index.ts: a fresh cache (stored route
count equal to the live count and a cached document present) is served as
is; otherwise the stored route count is updated first and then the build
runs, caching its result.  A throwing build (the abstract builder returning
none) propagates after the count was already updated, leaving the old
cached document in place. -/
def openAPISchema (build : List Route → Option Exclude → Option OpenDoc)
    (routes : List Route) (s : PluginState) : ReadOut :=
  if s.totalRoutes == routes.length && s.cachedSchema.isSome then
    ⟨s.cachedSchema, s, false⟩
  else
    match build routes s.currentExclude with
    | some doc => ⟨some doc, { s with totalRoutes := routes.length, cachedSchema := some doc }, true⟩
    | none => ⟨none, { s with totalRoutes := routes.length }, true⟩

/-- Modelled from the spec: a full document build, the composition of the
Schema Converter (toOpenAPISchema, not under src/) with toFullSchema; the
component-schema output of the converter is abstracted as empty since no
claim depends on generated schemas. -/
def buildDoc (pm : String → String → String → Bool) (rsv : List String)
    (docu : Documentation) (routes : List Route) (ex : Option Exclude) : OpenDoc :=
  toFullSchema docu ex (toOpenAPISchemaPaths pm rsv ex routes) []

/-- Builder that always succeeds with the modelled full document build. -/
def goodBuild (pm : String → String → String → Bool) (rsv : List String)
    (docu : Documentation) : List Route → Option Exclude → Option OpenDoc :=
  fun routes ex => some (buildDoc pm rsv docu routes ex)

/-- Mutation operation of the exclusion store runtime surface. -/
inductive Mutator where
  | set : Option Exclude → Mutator
  | addPaths : List PathEntry → Mutator
  | removePaths : List PathEntry → Mutator
  | addTags : List String → Mutator
  | removeTags : List String → Mutator
  | addMethods : List String → Mutator
  | removeMethods : List String → Mutator

/-- Application of a mutation operation to the plugin state. -/
def Mutator.apply : Mutator → PluginState → PluginState
  | .set ne, s => setExclusion ne s
  | .addPaths vs, s => addExcludedPaths vs s
  | .removePaths vs, s => removeExcludedPaths vs s
  | .addTags ts, s => addExcludedTags ts s
  | .removeTags ts, s => removeExcludedTags ts s
  | .addMethods ms, s => addExcludedMethods ms s
  | .removeMethods ms, s => removeExcludedMethods ms s

/-- Whether the mutation operation reaches its invalidateCache call in the
given state: setExclusion and the add operations always do, the remove
operations only when the corresponding list passes the truthiness guard. -/
def Mutator.invalidates : Mutator → PluginState → Bool
  | .set _, _ => true
  | .addPaths _, _ => true
  | .addTags _, _ => true
  | .addMethods _, _ => true
  | .removePaths _, s => pathsTruthy (s.currentExclude.bind (fun e => e.paths))
  | .removeTags _, s => (s.currentExclude.bind (fun e => e.tags)).isSome
  | .removeMethods _, s => (s.currentExclude.bind (fun e => e.methods)).isSome

/-- Reference-semantics heap holding the mutable JavaScript arrays of an
exclusion configuration: string arrays (tag and method lists) and path
entry arrays, addressed by index. -/
structure Heap where
  strCells : List (List String)
  pathCells : List (List PathEntry)
deriving DecidableEq

/-- Dereference of a string-array cell. -/
def Heap.getStr (h : Heap) (r : Nat) : List String := h.strCells.getD r []

/-- Dereference of a path-entry-array cell. -/
def Heap.getPath (h : Heap) (r : Nat) : List PathEntry := h.pathCells.getD r []

/-- In-place update of a string-array cell, as performed by a caller that
mutates an array it still holds a reference to. -/
def Heap.setStr (h : Heap) (r : Nat) (v : List String) : Heap :=
  { h with strCells := h.strCells.set r v }

/-- Paths field of an exclusion object under reference semantics: a scalar
entry or a reference to a heap-allocated array. -/
inductive PathsFieldR where
  | one : PathEntry → PathsFieldR
  | arr : Nat → PathsFieldR
deriving DecidableEq

/-- Exclusion configuration object under reference semantics: the array
fields hold references into the heap. -/
structure ExcludeRef where
  paths : Option PathsFieldR := none
  tags : Option Nat := none
  methods : Option Nat := none
deriving DecidableEq

/-- The object spread applied by setExclusion and getExclusion in
src/src/index.ts, under reference semantics: a new object whose fields are
copies of the argument's field values, which for the array fields are the
same heap references. -/
def shallowCopyExclude (e : ExcludeRef) : ExcludeRef :=
  { paths := e.paths, tags := e.tags, methods := e.methods }

/-- Policy value stored by setExclusion from src/src/index.ts under
reference semantics: a shallow copy of the argument, or undefined. -/
def setExclusionStored (newExclude : Option ExcludeRef) : Option ExcludeRef :=
  newExclude.map shallowCopyExclude

/-- Value returned by getExclusion from src/src/index.ts under reference
semantics: a shallow copy of the stored policy, or undefined. -/
def getExclusionReturned (cur : Option ExcludeRef) : Option ExcludeRef :=
  cur.map shallowCopyExclude

/-- Reading of a reference-semantics exclusion object into the value-level
policy by dereferencing its array fields through the heap. -/
def derefExclude (h : Heap) (e : ExcludeRef) : Exclude :=
  { paths :=
      e.paths.map (fun pf =>
        match pf with
        | .one en => .one en
        | .arr r => .many (h.getPath r))
  , tags := e.tags.map (fun r => h.getStr r)
  , methods := e.methods.map (fun r => h.getStr r) }

/-- Route Filter evaluated against a reference-semantics policy: the stored
object's array references are read through the current heap. -/
def routeFilterR (pm : String → String → String → Bool) (rsv : List String)
    (h : Heap) (ex : Option ExcludeRef) (r : Route) : Bool :=
  routeFilter pm rsv (ex.map (derefExclude h)) r

/-- Last match wins: the rightmost element of the list satisfying the
predicate, mirroring the overwrite discipline of the converter. -/
def revFind {A : Type} (p : A → Bool) : List A → Option A
  | [] => none
  | a :: as => ofirst (revFind p as) (if p a then some a else none)

/-- Pattern matcher oracle that accepts nothing, used in concrete scenarios. -/
def noPat : String → String → String → Bool := fun _ _ _ => false

/-- Builder that always throws, modelling a failing Schema Converter or
Document Assembler pass. -/
def failBuild : List Route → Option Exclude → Option OpenDoc := fun _ _ => none

/-- Concrete sample route with path /a. -/
def routeA : Route := { method := "GET", path := "/a", tags := [], hide := false }

/-- Concrete sample route with path /b. -/
def routeB : Route := { method := "GET", path := "/b", tags := [], hide := false }

/-- Initial plugin state: counter at zero, no cached document, no policy. -/
def stateZero : PluginState := { totalRoutes := 0, cachedSchema := none, currentExclude := none }

/-- Empty static documentation object. -/
def docuDef : Documentation := {}

/-- Concrete policy excluding the literal path /z only. -/
def exOnlyPathsZ : Exclude :=
  { paths := some (PathsField.many [PathEntry.lit ("/z")]), tags := none, methods := none }

/-- Concrete policy excluding the literal path /a only. -/
def exOnlyPathsA : Exclude :=
  { paths := some (PathsField.many [PathEntry.lit ("/a")]), tags := none, methods := none }

/-- Concrete policy with all three lists configured. -/
def exFull : Exclude :=
  { paths := some (PathsField.many [PathEntry.lit ("/a")]), tags := some [("t")], methods := some [("get")] }

/-- Concrete plugin state with all three lists configured and no cache. -/
def stateFull : PluginState :=
  { totalRoutes := 3, cachedSchema := none, currentExclude := some exFull }

/-- Concrete plugin state holding a freshly built cached document under the
policy that excludes /z, reached by a setExclusion call followed by a read. -/
def stateCachedZ : PluginState :=
  (openAPISchema (goodBuild noPat [] docuDef) [routeA] (setExclusion (some exOnlyPathsZ) stateZero)).state

theorem ofirst_none_right {V : Type} (a : Option V) : ofirst a none = a := by
  cases a <;> rfl

theorem ofirst_assoc {V : Type} (a b c : Option V) :
    ofirst (ofirst a b) c = ofirst a (ofirst b c) := by
  cases a <;> rfl

theorem ofirst_ite {V : Type} (c : Prop) [Decidable c] (v : V) (b : Option V) :
    ofirst (if c then some v else none) b = if c then some v else b := by
  by_cases h : c <;> simp [h, ofirst]

theorem olookup_map_replace {V : Type} (l : List (String × V)) (k : String) (v : V) (q : String) :
    olookup (l.map (fun p => if p.1 == k then (k, v) else p)) q =
      if q == k then (olookup l k).map (fun _ => v) else olookup l q := by
  induction l with
  | nil => by_cases hqk : q = k <;> simp [olookup, hqk]
  | cons a l ih =>
    simp only [beq_iff_eq] at ih
    by_cases hak : a.1 = k
    · by_cases hqk : q = k
      · simp [olookup, hak, hqk]
      · have hkq : ¬(k = q) := fun h => hqk h.symm
        simp [olookup, hak, hqk, hkq, ih]
    · by_cases haq : a.1 = q
      · have hqk : ¬(q = k) := fun h => hak (by rw [haq, h])
        simp [olookup, hak, haq, hqk]
      · simp [olookup, hak, haq, ih]

theorem olookup_append_single {V : Type} (l : List (String × V)) (k : String) (v : V) (q : String) :
    olookup (l ++ [(k, v)]) q = ofirst (olookup l q) (if q == k then some v else none) := by
  induction l with
  | nil =>
    by_cases hqk : q = k
    · subst hqk; simp [olookup, ofirst]
    · simp [olookup, ofirst, hqk, Ne.symm hqk]
  | cons a l ih =>
    by_cases haq : a.1 = q <;> simp [olookup, haq, ih, ofirst]

theorem olookup_oset {V : Type} (l : List (String × V)) (k : String) (v : V) (q : String) :
    olookup (oset l k v) q = if q == k then some v else olookup l q := by
  unfold oset
  cases hs : (olookup l k) with
  | some w =>
    simp only [hs, Option.isSome_some, if_true, olookup_map_replace, Option.map_some']
  | none =>
    simp only [hs, Option.isSome_none, Bool.false_eq_true, if_false, olookup_append_single]
    by_cases hqk : q = k
    · subst hqk; simp [hs, ofirst]
    · simp [hqk, Ne.symm hqk, ofirst_none_right]

theorem olookup2_getD {V : Type} (l : List (String × List (String × V))) (k m : String) :
    olookup ((olookup l k).getD []) m = olookup2 l k m := by
  unfold olookup2
  cases olookup l k <;> simp [olookup]

theorem olookup2_convStep (pm : String → String → String → Bool) (rsv : List String)
    (ex : Option Exclude) (acc : List (String × PathItem)) (r : Route) (k m : String) :
    olookup2 (convStep pm rsv ex acc r) k m =
      if routeFilter pm rsv ex r && (toOpenAPIPath r.path == k) && (r.method == m)
      then some r else olookup2 acc k m := by
  unfold convStep
  cases hf : routeFilter pm rsv ex r
  · simp
  · simp only [if_true, Bool.true_and]
    unfold olookup2
    rw [olookup_oset]
    by_cases hk : k = toOpenAPIPath r.path
    · subst hk
      simp only [beq_self_eq_true, if_true]
      rw [olookup_oset, olookup2_getD]
      by_cases hm : m = r.method
      · subst hm; simp [olookup2]
      · simp [hm, Ne.symm hm, olookup2]
    · simp [hk, Ne.symm hk, olookup2]

theorem revFind_cons {A : Type} (p : A → Bool) (a : A) (l : List A) :
    revFind p (a :: l) = ofirst (revFind p l) (if p a then some a else none) := rfl

theorem revFind_eq_none {A : Type} (p : A → Bool) (l : List A) :
    revFind p l = none ↔ ∀ a ∈ l, p a = false := by
  induction l with
  | nil => simp [revFind]
  | cons a l ih =>
    rw [revFind_cons]
    constructor
    · intro h
      cases hr : revFind p l with
      | some b => rw [hr] at h; simp [ofirst] at h
      | none =>
        rw [hr] at h
        simp only [ofirst] at h
        intro x hx
        rcases List.mem_cons.mp hx with h1 | h2
        · subst h1
          cases hp : p x
          · rfl
          · rw [hp] at h; simp at h
        · exact ih.mp hr x h2
    · intro h
      have h1 : revFind p l = none := ih.mpr (fun x hx => h x (List.mem_cons_of_mem a hx))
      rw [h1]
      have h2 : p a = false := h a (List.mem_cons_self a l)
      simp [ofirst, h2]

theorem revFind_some {A : Type} (p : A → Bool) (l : List A) (r : A)
    (h : revFind p l = some r) : p r = true ∧ r ∈ l := by
  induction l with
  | nil => cases h
  | cons a l ih =>
    rw [revFind_cons] at h
    cases hr : revFind p l with
    | some b =>
      rw [hr] at h
      simp only [ofirst] at h
      have hb : b = r := Option.some.inj h
      subst hb
      obtain ⟨h1, h2⟩ := ih hr
      exact ⟨h1, List.mem_cons_of_mem a h2⟩
    | none =>
      rw [hr] at h
      simp only [ofirst] at h
      cases hp : p a
      · simp [hp] at h
      · rw [hp] at h
        simp only [if_true] at h
        have ha : a = r := by simpa using h
        subst ha
        exact ⟨hp, List.mem_cons_self a l⟩

theorem revFind_of_unique {A : Type} (p : A → Bool) (l : List A) (r : A)
    (hp : p r = true) (hmem : r ∈ l) (huniq : ∀ a ∈ l, p a = true → a = r) :
    revFind p l = some r := by
  induction l with
  | nil => cases hmem
  | cons b l ih =>
    rw [revFind_cons]
    cases hr : revFind p l with
    | some c =>
      have hc := revFind_some p l c hr
      have hcr : c = r := huniq c (List.mem_cons_of_mem b hc.2) hc.1
      subst hcr
      rfl
    | none =>
      have hnb : ∀ x ∈ l, p x = false := (revFind_eq_none p l).mp hr
      rcases List.mem_cons.mp hmem with h1 | h2
      · subst h1
        simp [ofirst, hp]
      · have hcontra := hnb r h2
        rw [hp] at hcontra
        cases hcontra

theorem toPaths_foldl (pm : String → String → String → Bool) (rsv : List String)
    (ex : Option Exclude) (k m : String) (routes : List Route) :
    ∀ acc : List (String × PathItem),
    olookup2 (List.foldl (convStep pm rsv ex) acc routes) k m =
      ofirst
        (revFind (fun r => routeFilter pm rsv ex r && (toOpenAPIPath r.path == k) && (r.method == m)) routes)
        (olookup2 acc k m) := by
  induction routes with
  | nil => intro acc; simp [revFind, ofirst]
  | cons r rest ih =>
    intro acc
    rw [List.foldl_cons, ih (convStep pm rsv ex acc r), olookup2_convStep, revFind_cons,
      ofirst_assoc, ofirst_ite]

theorem olookup2_nil {V : Type} (k m : String) :
    olookup2 ([] : List (String × List (String × V))) k m = none := rfl

theorem convert_lookup (pm : String → String → String → Bool) (rsv : List String)
    (ex : Option Exclude) (routes : List Route)
    (hnd : (routes.map routeKey).Nodup) (r : Route) (hmem : r ∈ routes) :
    olookup2 (toOpenAPISchemaPaths pm rsv ex routes) (toOpenAPIPath r.path) r.method = some r ↔
      routeFilter pm rsv ex r = true := by
  unfold toOpenAPISchemaPaths
  rw [toPaths_foldl pm rsv ex (toOpenAPIPath r.path) r.method routes [], olookup2_nil,
    ofirst_none_right]
  constructor
  · intro h
    have hs := revFind_some _ routes r h
    have hp := hs.1
    simp only [Bool.and_eq_true] at hp
    exact hp.1.1
  · intro hf
    apply revFind_of_unique
    · simp [hf]
    · exact hmem
    · intro a ha hpa
      simp only [Bool.and_eq_true, beq_iff_eq] at hpa
      have hkey : routeKey a = routeKey r := by
        unfold routeKey
        rw [hpa.1.2, hpa.2]
      exact List.inj_on_of_nodup_map hnd ha hmem hkey

theorem routeFilter_trivial (pm : String → String → String → Bool) (rsv : List String)
    (ex : Option Exclude) (r : Route)
    (hp : exPathsMatch pm ex r.path = false)
    (ht : exTagsMatch ex r.tags = false)
    (hm : exMethodsMatch ex r.method = false) :
    routeFilter pm rsv ex r = (!(rsv.any (fun p => strLeads p r.path)) && !r.hide) := by
  cases hres : rsv.any (fun p => strLeads p r.path) <;> cases hh : r.hide <;>
    simp [routeFilter, hres, hh, hp, ht, hm]

/-- C1: for every route set with well-defined document keys and every
exclusion policy, a route's operation is present in the generated paths
object exactly when the Route Filter accepts the route; the filter applies
reserved-prefix self-exclusion, the hide flag, path match, tag match and
case-insensitive method match with exclusion dominating; and an absent or
empty policy excludes nothing besides reserved-path and hidden routes. -/
theorem claim_C1 (pm : String → String → String → Bool) (rsv : List String)
    (ex : Option Exclude) (routes : List Route)
    (hnd : (routes.map routeKey).Nodup) :
    (∀ r ∈ routes,
      (olookup2 (toOpenAPISchemaPaths pm rsv ex routes) (toOpenAPIPath r.path) r.method = some r ↔
        routeFilter pm rsv ex r = true))
    ∧ (∀ r : Route, routeFilter pm rsv none r = (!(rsv.any (fun p => strLeads p r.path)) && !r.hide))
    ∧ (∀ r : Route, routeFilter pm rsv (some {}) r = (!(rsv.any (fun p => strLeads p r.path)) && !r.hide))
    ∧ (∀ r : Route, r.hide = true → routeFilter pm rsv ex r = false)
    ∧ (∀ r : Route, rsv.any (fun p => strLeads p r.path) = true → routeFilter pm rsv ex r = false) := by
  refine ⟨fun r hr => convert_lookup pm rsv ex routes hnd r hr, ?_, ?_, ?_, ?_⟩
  · intro r
    exact routeFilter_trivial pm rsv none r rfl rfl rfl
  · intro r
    exact routeFilter_trivial pm rsv (some {}) r rfl rfl rfl
  · intro r hh
    cases hres : rsv.any (fun p => strLeads p r.path) <;> simp [routeFilter, hres, hh]
  · intro r hres
    simp [routeFilter, hres]

/-- Witness for C1 at a concrete input: a single visible route under the
default reserved path is present in the generated paths object. -/
theorem claim_C1_witness :
    olookup2 (toOpenAPISchemaPaths noPat [("/openapi")] none [routeA])
      (toOpenAPIPath routeA.path) routeA.method = some routeA :=
  ((claim_C1 noPat [("/openapi")] none [routeA] (by decide)).1 routeA (by decide)).mpr (by decide)

theorem removeExcludedPaths_no_ex (vs : List PathEntry) (s : PluginState)
    (h : s.currentExclude = none) : removeExcludedPaths vs s = s := by
  unfold removeExcludedPaths
  rw [h]

theorem removeExcludedPaths_no_paths (vs : List PathEntry) (s : PluginState) (ex : Exclude)
    (h : s.currentExclude = some ex) (hp : ex.paths = none) :
    removeExcludedPaths vs s = s := by
  unfold removeExcludedPaths
  simp only [h, hp]

theorem removeExcludedPaths_falsy (vs : List PathEntry) (s : PluginState) (ex : Exclude)
    (f : PathsField) (h : s.currentExclude = some ex) (hp : ex.paths = some f)
    (ht : pathsTruthy (some f) = false) :
    removeExcludedPaths vs s = s := by
  unfold removeExcludedPaths
  simp [h, hp, ht]

theorem removeExcludedPaths_truthy (vs : List PathEntry) (s : PluginState) (ex : Exclude)
    (f : PathsField) (h : s.currentExclude = some ex) (hp : ex.paths = some f)
    (ht : pathsTruthy (some f) = true) :
    removeExcludedPaths vs s =
      invalidateCache
        { s with currentExclude := some { ex with paths := some (.many
            ((match f with | .many l => l | .one e => [e]).filter
              (fun p => !(vs.any (fun v => entryEq p v))))) } } := by
  unfold removeExcludedPaths
  simp [h, hp, ht]

theorem removeExcludedTags_no_ex (ts : List String) (s : PluginState)
    (h : s.currentExclude = none) : removeExcludedTags ts s = s := by
  unfold removeExcludedTags
  rw [h]

theorem removeExcludedTags_no_tags (ts : List String) (s : PluginState) (ex : Exclude)
    (h : s.currentExclude = some ex) (hp : ex.tags = none) :
    removeExcludedTags ts s = s := by
  unfold removeExcludedTags
  simp only [h, hp]

theorem removeExcludedTags_present (ts : List String) (s : PluginState) (ex : Exclude)
    (cur : List String) (h : s.currentExclude = some ex) (hp : ex.tags = some cur) :
    removeExcludedTags ts s =
      invalidateCache
        { s with currentExclude := some { ex with tags := some (cur.filter (fun t => !(ts.contains t))) } } := by
  unfold removeExcludedTags
  simp only [h, hp]

theorem removeExcludedMethods_no_ex (ms : List String) (s : PluginState)
    (h : s.currentExclude = none) : removeExcludedMethods ms s = s := by
  unfold removeExcludedMethods
  rw [h]

theorem removeExcludedMethods_no_methods (ms : List String) (s : PluginState) (ex : Exclude)
    (h : s.currentExclude = some ex) (hp : ex.methods = none) :
    removeExcludedMethods ms s = s := by
  unfold removeExcludedMethods
  simp only [h, hp]

theorem removeExcludedMethods_present (ms : List String) (s : PluginState) (ex : Exclude)
    (cur : List String) (h : s.currentExclude = some ex) (hp : ex.methods = some cur) :
    removeExcludedMethods ms s =
      invalidateCache
        { s with currentExclude := some { ex with methods := some (cur.filter (fun m => !(ms.contains m))) } } := by
  unfold removeExcludedMethods
  simp only [h, hp]

theorem mutator_invalidates_clears (m : Mutator) (s : PluginState)
    (h : m.invalidates s = true) :
    (m.apply s).cachedSchema = none ∧ (m.apply s).totalRoutes = 0 := by
  cases m with
  | set ne => exact ⟨rfl, rfl⟩
  | addPaths vs => exact ⟨rfl, rfl⟩
  | addTags ts => exact ⟨rfl, rfl⟩
  | addMethods ms => exact ⟨rfl, rfl⟩
  | removePaths vs =>
    simp only [Mutator.invalidates] at h
    show (removeExcludedPaths vs s).cachedSchema = none ∧ (removeExcludedPaths vs s).totalRoutes = 0
    cases hce : s.currentExclude with
    | none => rw [hce] at h; simp [pathsTruthy] at h
    | some ex =>
      rw [hce] at h
      simp only [Option.bind] at h
      cases hp : ex.paths with
      | none => rw [hp] at h; simp [pathsTruthy] at h
      | some f =>
        rw [hp] at h
        rw [removeExcludedPaths_truthy vs s ex f hce hp h]
        exact ⟨rfl, rfl⟩
  | removeTags ts =>
    simp only [Mutator.invalidates] at h
    show (removeExcludedTags ts s).cachedSchema = none ∧ (removeExcludedTags ts s).totalRoutes = 0
    cases hce : s.currentExclude with
    | none => rw [hce] at h; simp at h
    | some ex =>
      rw [hce] at h
      simp only [Option.bind] at h
      cases hp : ex.tags with
      | none => rw [hp] at h; simp at h
      | some cur =>
        rw [removeExcludedTags_present ts s ex cur hce hp]
        exact ⟨rfl, rfl⟩
  | removeMethods ms =>
    simp only [Mutator.invalidates] at h
    show (removeExcludedMethods ms s).cachedSchema = none ∧ (removeExcludedMethods ms s).totalRoutes = 0
    cases hce : s.currentExclude with
    | none => rw [hce] at h; simp at h
    | some ex =>
      rw [hce] at h
      simp only [Option.bind] at h
      cases hp : ex.methods with
      | none => rw [hp] at h; simp at h
      | some cur =>
        rw [removeExcludedMethods_present ms s ex cur hce hp]
        exact ⟨rfl, rfl⟩

/-- C2 (amended): two consecutive spec-endpoint reads with unchanged routes
return the identical document with no rebuild; a read immediately after a
mutator call that invalidated the cache (setExclusion and every add always,
a removal exactly when the corresponding list passes its guard) performs a
full rebuild reflecting the current policy; and a read after any change of
the live route count performs a full rebuild reflecting the current policy.
Removal calls that find no configured list leave the state and hence the
fresh cache untouched, so no rebuild follows them. -/
theorem claim_C2 (pm : String → String → String → Bool) (rsv : List String)
    (docu : Documentation) (routes : List Route) (s t u : PluginState) (m : Mutator)
    (hm : m.invalidates t = true) (hu : u.totalRoutes ≠ routes.length) :
    (openAPISchema (goodBuild pm rsv docu) routes
        (openAPISchema (goodBuild pm rsv docu) routes s).state =
      ⟨(openAPISchema (goodBuild pm rsv docu) routes s).doc,
       (openAPISchema (goodBuild pm rsv docu) routes s).state, false⟩)
    ∧ ((openAPISchema (goodBuild pm rsv docu) routes (m.apply t)).rebuilt = true
       ∧ (openAPISchema (goodBuild pm rsv docu) routes (m.apply t)).doc =
           some (buildDoc pm rsv docu routes (m.apply t).currentExclude))
    ∧ ((openAPISchema (goodBuild pm rsv docu) routes u).rebuilt = true
       ∧ (openAPISchema (goodBuild pm rsv docu) routes u).doc =
           some (buildDoc pm rsv docu routes u.currentExclude)) := by
  refine ⟨?_, ?_, ?_⟩
  · cases hc : (s.totalRoutes == routes.length && s.cachedSchema.isSome) with
    | true => simp [openAPISchema, hc]
    | false => simp [openAPISchema, goodBuild, hc]
  · obtain ⟨hcs, _⟩ := mutator_invalidates_clears m t hm
    refine ⟨?_, ?_⟩ <;> simp [openAPISchema, goodBuild, hcs]
  · have hb : (u.totalRoutes == routes.length) = false := beq_eq_false_iff_ne.mpr hu
    refine ⟨?_, ?_⟩ <;> simp [openAPISchema, goodBuild, hb]

/-- Witness for C2 at a concrete input: after an add-tags mutation in the
initial state, the next read goes down the rebuild branch. -/
theorem claim_C2_witness :
    (openAPISchema (goodBuild noPat [] docuDef) [routeA]
      ((Mutator.addTags [("x")]).apply stateZero)).rebuilt = true :=
  ((claim_C2 noPat [] docuDef [routeA] stateZero stateZero
      { totalRoutes := 5, cachedSchema := none, currentExclude := none }
      (Mutator.addTags [("x")]) (by decide) (by decide)).2.1).1

/-- Counterexample for C2 as stated: a removeExcludedPaths call on a fresh
state with no configured path list is an exclusion mutator, yet the read
immediately after it serves the cache and performs no rebuild. -/
theorem claim_C2_cex :
    removeExcludedPaths [PathEntry.lit ("/x")]
        (openAPISchema (goodBuild noPat [] docuDef) [routeA] stateZero).state =
      (openAPISchema (goodBuild noPat [] docuDef) [routeA] stateZero).state
    ∧ (openAPISchema (goodBuild noPat [] docuDef) [routeA]
        (removeExcludedPaths [PathEntry.lit ("/x")]
          (openAPISchema (goodBuild noPat [] docuDef) [routeA] stateZero).state)).rebuilt = false := by
  decide

/-- C3: concrete run showing the code serving a previously cached stale
document after a failed build.  A document for one route is cached; a
second route appears; the rebuild triggered by the count change throws.
Because the handler updates the stored route count before building, the
failed read leaves the old document cached behind a now-matching count, so
the following read returns the stale document without any rebuild attempt,
although the exclusion store itself is unchanged by the failure. -/
theorem claim_C3 :
    ((openAPISchema failBuild [routeA, routeB]
        (openAPISchema (goodBuild noPat [] docuDef) [routeA] stateZero).state).state.cachedSchema =
      some (buildDoc noPat [] docuDef [routeA] none))
    ∧ ((openAPISchema (goodBuild noPat [] docuDef) [routeA, routeB]
        (openAPISchema failBuild [routeA, routeB]
          (openAPISchema (goodBuild noPat [] docuDef) [routeA] stateZero).state).state).rebuilt = false)
    ∧ ((openAPISchema (goodBuild noPat [] docuDef) [routeA, routeB]
        (openAPISchema failBuild [routeA, routeB]
          (openAPISchema (goodBuild noPat [] docuDef) [routeA] stateZero).state).state).doc =
      some (buildDoc noPat [] docuDef [routeA] none))
    ∧ (buildDoc noPat [] docuDef [routeA] none ≠ buildDoc noPat [] docuDef [routeA, routeB] none)
    ∧ ((openAPISchema failBuild [routeA, routeB]
        (openAPISchema (goodBuild noPat [] docuDef) [routeA] stateZero).state).state.currentExclude =
      (openAPISchema (goodBuild noPat [] docuDef) [routeA] stateZero).state.currentExclude) := by
  decide

/-- Counterexample for C4 as stated: setExclusion stores only a shallow
copy, so after the caller pushes a tag into the array it passed in, the
stored policy reads the mutated array through the shared reference and a
previously included route becomes excluded; moreover the object returned
by getExclusion holds the very same array reference as the store. -/
theorem claim_C4_cex :
    routeFilterR noPat [] { strCells := [[("admin")]], pathCells := [] }
        (setExclusionStored (some { paths := none, tags := some 0, methods := none }))
        { method := ("GET"), path := ("/users"), tags := [("users")], hide := false } = true
    ∧ routeFilterR noPat [] { strCells := [[("admin"), ("users")]], pathCells := [] }
        (setExclusionStored (some { paths := none, tags := some 0, methods := none }))
        { method := ("GET"), path := ("/users"), tags := [("users")], hide := false } = false
    ∧ (getExclusionReturned (setExclusionStored
        (some { paths := none, tags := some 0, methods := none }))).map (fun e => e.tags) =
      some (some 0) := by
  decide

/-- C4 (amended): the stored and returned policies are shallow copies: the
spread copies the three fields, so the copy shares the caller's array
references, filtering through the copy agrees with filtering through the
original object over any heap (in particular any in-place array mutation is
visible through both), and getExclusion returns such a field-sharing copy. -/
theorem claim_C4 (pm : String → String → String → Bool) (rsv : List String)
    (h : Heap) (e : ExcludeRef) (r : Route) :
    routeFilterR pm rsv h (some (shallowCopyExclude e)) r = routeFilterR pm rsv h (some e) r
    ∧ (shallowCopyExclude e).paths = e.paths
    ∧ (shallowCopyExclude e).tags = e.tags
    ∧ (shallowCopyExclude e).methods = e.methods
    ∧ getExclusionReturned (some e) = some (shallowCopyExclude e) :=
  ⟨rfl, rfl, rfl, rfl, rfl⟩

/-- Counterexample for C5 as stated: with a cached document present and the
path list configured as a single literal, removing a value that matches no
entry removes nothing, yet the cached document is dropped and the stored
route counter is reset. -/
theorem claim_C5_cex :
    (removeExcludedPaths [PathEntry.lit ("/b")] stateCachedZ).currentExclude =
      stateCachedZ.currentExclude
    ∧ stateCachedZ.cachedSchema.isSome = true
    ∧ (removeExcludedPaths [PathEntry.lit ("/b")] stateCachedZ).cachedSchema = none := by
  decide

/-- C5 (amended): a removal call leaves the state entirely unchanged when
the corresponding list fails its guard (absent policy, absent list or falsy
scalar); when the list is configured, the call invalidates the cache --
dropping the cached document and resetting the route counter -- even if the
given values matched nothing. -/
theorem claim_C5 (vs : List PathEntry) (ts ms : List String) (a b : PluginState)
    (hpa : pathsTruthy (a.currentExclude.bind (fun e => e.paths)) = false)
    (hta : a.currentExclude.bind (fun e => e.tags) = none)
    (hma : a.currentExclude.bind (fun e => e.methods) = none)
    (hpb : pathsTruthy (b.currentExclude.bind (fun e => e.paths)) = true)
    (htb : (b.currentExclude.bind (fun e => e.tags)).isSome = true)
    (hmb : (b.currentExclude.bind (fun e => e.methods)).isSome = true) :
    (removeExcludedPaths vs a = a ∧ removeExcludedTags ts a = a ∧ removeExcludedMethods ms a = a)
    ∧ ((removeExcludedPaths vs b).cachedSchema = none ∧ (removeExcludedPaths vs b).totalRoutes = 0)
    ∧ ((removeExcludedTags ts b).cachedSchema = none ∧ (removeExcludedTags ts b).totalRoutes = 0)
    ∧ ((removeExcludedMethods ms b).cachedSchema = none ∧ (removeExcludedMethods ms b).totalRoutes = 0) := by
  refine ⟨⟨?_, ?_, ?_⟩, mutator_invalidates_clears (.removePaths vs) b hpb,
    mutator_invalidates_clears (.removeTags ts) b htb,
    mutator_invalidates_clears (.removeMethods ms) b hmb⟩
  · cases hce : a.currentExclude with
    | none => exact removeExcludedPaths_no_ex vs a hce
    | some ex =>
      rw [hce] at hpa
      simp only [Option.bind] at hpa
      cases hp : ex.paths with
      | none => exact removeExcludedPaths_no_paths vs a ex hce hp
      | some f =>
        rw [hp] at hpa
        exact removeExcludedPaths_falsy vs a ex f hce hp hpa
  · cases hce : a.currentExclude with
    | none => exact removeExcludedTags_no_ex ts a hce
    | some ex =>
      rw [hce] at hta
      simp only [Option.bind] at hta
      exact removeExcludedTags_no_tags ts a ex hce hta
  · cases hce : a.currentExclude with
    | none => exact removeExcludedMethods_no_ex ms a hce
    | some ex =>
      rw [hce] at hma
      simp only [Option.bind] at hma
      exact removeExcludedMethods_no_methods ms a ex hce hma

/-- Witness for C5 at concrete inputs: removal on the empty policy is the
identity, and removal of an unmatched tag on a fully configured policy
still drops the cached entry. -/
theorem claim_C5_witness :
    removeExcludedPaths [PathEntry.lit ("/z")] stateZero = stateZero
    ∧ (removeExcludedTags [("x")] stateFull).totalRoutes = 0 := by
  have h := claim_C5 [PathEntry.lit ("/z")] [("x")] [("m")] stateZero stateFull
    (by decide) (by decide) (by decide) (by decide) (by decide) (by decide)
  exact ⟨h.1.1, h.2.2.1.2⟩

theorem entryEq_refl (e : PathEntry) : entryEq e e = true := by
  cases e <;> simp [entryEq]

theorem addExcludedPaths_eq (vs : List PathEntry) (s : PluginState) :
    addExcludedPaths vs s =
      { totalRoutes := 0, cachedSchema := none,
        currentExclude := some
          { paths := some (.many (pathsToList (s.currentExclude.bind (fun x => x.paths)) ++ vs)),
            tags := s.currentExclude.bind (fun x => x.tags),
            methods := s.currentExclude.bind (fun x => x.methods) } } := by
  unfold addExcludedPaths invalidateCache
  cases s.currentExclude <;> rfl

theorem removeExcludedPaths_many (vs : List PathEntry) (s : PluginState) (ex : Exclude)
    (l : List PathEntry) (h : s.currentExclude = some ex) (hp : ex.paths = some (.many l)) :
    removeExcludedPaths vs s =
      invalidateCache
        { s with currentExclude := some { ex with paths := some (.many
            (l.filter (fun p => !(vs.any (fun v => entryEq p v))))) } } := by
  unfold removeExcludedPaths
  simp [h, hp, pathsTruthy]

theorem roundTrip_filter (vs cur : List PathEntry)
    (h1 : ∀ e ∈ cur, ∀ v ∈ vs, entryEq e v = false) :
    (cur ++ vs).filter (fun p => !(vs.any (fun v => entryEq p v))) = cur := by
  rw [List.filter_append]
  have hcur : cur.filter (fun p => !(vs.any (fun v => entryEq p v))) = cur := by
    apply List.filter_eq_self.mpr
    intro e he
    have hfalse : vs.any (fun v => entryEq e v) = false := by
      rw [List.any_eq_false]
      intro v hv
      rw [h1 e he v hv]
      simp
    rw [hfalse]
    rfl
  have hvs : vs.filter (fun p => !(vs.any (fun v => entryEq p v))) = [] := by
    apply List.filter_eq_nil_iff.mpr
    intro v hv
    have htrue : vs.any (fun w => entryEq v w) = true :=
      List.any_eq_true.mpr ⟨v, hv, entryEq_refl v⟩
    simp [htrue]
  rw [hcur, hvs, List.append_nil]

theorem routeFilter_eq_of_dims (pm : String → String → String → Bool) (rsv : List String)
    (ex1 ex2 : Option Exclude) (r : Route)
    (hp : exPathsMatch pm ex1 r.path = exPathsMatch pm ex2 r.path)
    (ht : exTagsMatch ex1 r.tags = exTagsMatch ex2 r.tags)
    (hm : exMethodsMatch ex1 r.method = exMethodsMatch ex2 r.method) :
    routeFilter pm rsv ex1 r = routeFilter pm rsv ex2 r := by
  unfold routeFilter
  rw [hp, ht, hm]

/-- C6 (amended): adding path values and then removing the same values
restores the original filtering result -- with pattern equality decided
structurally by source and flags -- provided no given value structurally
equals an entry already configured and the prior paths value is not the
falsy empty-string scalar (which the add silently drops). -/
theorem claim_C6 (pm : String → String → String → Bool) (rsv : List String)
    (s : PluginState) (vs : List PathEntry) (r : Route)
    (h1 : ∀ e ∈ pathsToList (s.currentExclude.bind (fun x => x.paths)), ∀ v ∈ vs, entryEq e v = false)
    (h2 : s.currentExclude.bind (fun x => x.paths) ≠ some (.one (.lit ("")))) :
    routeFilter pm rsv (removeExcludedPaths vs (addExcludedPaths vs s)).currentExclude r =
      routeFilter pm rsv s.currentExclude r := by
  have hpaths : (removeExcludedPaths vs (addExcludedPaths vs s)).currentExclude =
      some { paths := some (.many (pathsToList (s.currentExclude.bind (fun x => x.paths)))),
             tags := s.currentExclude.bind (fun x => x.tags),
             methods := s.currentExclude.bind (fun x => x.methods) } := by
    rw [addExcludedPaths_eq]
    rw [removeExcludedPaths_many vs _ _
      (pathsToList (s.currentExclude.bind (fun x => x.paths)) ++ vs) rfl rfl]
    rw [roundTrip_filter vs _ h1]
    rfl
  rw [hpaths]
  apply routeFilter_eq_of_dims
  · unfold exPathsMatch
    cases hbp : s.currentExclude.bind (fun x => x.paths) with
    | none => rfl
    | some f =>
      cases f with
      | many l => rfl
      | one e =>
        rw [hbp] at h2
        cases e with
        | lit str =>
          have hs : ¬(str = "") := by
            intro hstr
            apply h2
            rw [hstr]
          simp [pathsToList, pathsTruthy, hs]
        | pat a b =>
          simp [pathsToList, pathsTruthy]
  · rfl
  · rfl

/-- Counterexample for C6 as stated: with /a already excluded, adding /a
again and then removing /a deletes the pre-existing entry too, so the
route /a was excluded originally but is included after the round trip. -/
theorem claim_C6_cex :
    routeFilter noPat [] (setExclusion (some exOnlyPathsA) stateZero).currentExclude routeA = false
    ∧ routeFilter noPat []
        (removeExcludedPaths [PathEntry.lit ("/a")]
          (addExcludedPaths [PathEntry.lit ("/a")]
            (setExclusion (some exOnlyPathsA) stateZero))).currentExclude routeA = true := by
  decide

/-- Witness for C6 at a concrete input: adding and removing /b over the
policy that excludes /a leaves the filter verdict of route /a unchanged. -/
theorem claim_C6_witness :
    routeFilter noPat []
        (removeExcludedPaths [PathEntry.lit ("/b")]
          (addExcludedPaths [PathEntry.lit ("/b")]
            (setExclusion (some exOnlyPathsA) stateZero))).currentExclude routeA =
      routeFilter noPat [] (setExclusion (some exOnlyPathsA) stateZero).currentExclude routeA :=
  claim_C6 noPat [] (setExclusion (some exOnlyPathsA) stateZero) [PathEntry.lit ("/b")] routeA
    (by decide) (by decide)

theorem addExcludedTags_eq (ts : List String) (s : PluginState) :
    addExcludedTags ts s =
      { totalRoutes := 0, cachedSchema := none,
        currentExclude := some
          { paths := s.currentExclude.bind (fun x => x.paths),
            tags := some ((s.currentExclude.bind (fun x => x.tags)).getD [] ++ ts),
            methods := s.currentExclude.bind (fun x => x.methods) } } := by
  unfold addExcludedTags invalidateCache
  cases s.currentExclude <;> rfl

theorem addExcludedMethods_eq (ms : List String) (s : PluginState) :
    addExcludedMethods ms s =
      { totalRoutes := 0, cachedSchema := none,
        currentExclude := some
          { paths := s.currentExclude.bind (fun x => x.paths),
            tags := s.currentExclude.bind (fun x => x.tags),
            methods := some ((s.currentExclude.bind (fun x => x.methods)).getD [] ++ ms) } } := by
  unfold addExcludedMethods invalidateCache
  cases s.currentExclude <;> rfl

/-- Counterexample for C7 as stated: adding a tag that is already in the
list appends a second copy instead of behaving like set union, so the list
ends up with duplicates. -/
theorem claim_C7_cex :
    (addExcludedTags [("a")]
        (setExclusion (some { paths := none, tags := some [("a")], methods := none }) stateZero)).currentExclude =
      some { paths := none, tags := some [("a"), ("a")], methods := none }
    ∧ ¬ ([("a"), ("a")] : List String).Nodup := by
  decide

/-- C7 (amended): addExcludedTags and addExcludedMethods append the given
values to the list (duplicates are not collapsed, so this is not set
union); removeExcludedTags and removeExcludedMethods delete every
occurrence of each given value, keep exactly the entries not given, and
preserve the relative order of survivors (the result is a sublist of the
original list). -/
theorem claim_C7 (ts ms : List String) (s t : PluginState) (curT curM : List String)
    (hts : t.currentExclude.bind (fun e => e.tags) = some curT)
    (hms : t.currentExclude.bind (fun e => e.methods) = some curM) :
    ((addExcludedTags ts s).currentExclude.bind (fun e => e.tags) =
        some ((s.currentExclude.bind (fun e => e.tags)).getD [] ++ ts))
    ∧ ((addExcludedMethods ms s).currentExclude.bind (fun e => e.methods) =
        some ((s.currentExclude.bind (fun e => e.methods)).getD [] ++ ms))
    ∧ ((removeExcludedTags ts t).currentExclude.bind (fun e => e.tags) =
        some (curT.filter (fun x => !(ts.contains x))))
    ∧ (curT.filter (fun x => !(ts.contains x))).Sublist curT
    ∧ (∀ x, x ∈ curT.filter (fun x => !(ts.contains x)) ↔ x ∈ curT ∧ x ∉ ts)
    ∧ ((removeExcludedMethods ms t).currentExclude.bind (fun e => e.methods) =
        some (curM.filter (fun x => !(ms.contains x))))
    ∧ (curM.filter (fun x => !(ms.contains x))).Sublist curM
    ∧ (∀ x, x ∈ curM.filter (fun x => !(ms.contains x)) ↔ x ∈ curM ∧ x ∉ ms) := by
  have hex : ∃ ex, t.currentExclude = some ex := by
    cases hce : t.currentExclude with
    | none => rw [hce] at hts; cases hts
    | some ex => exact ⟨ex, rfl⟩
  obtain ⟨ex, hce⟩ := hex
  rw [hce] at hts hms
  simp only [Option.bind] at hts hms
  refine ⟨?_, ?_, ?_, List.filter_sublist curT, ?_, ?_, List.filter_sublist curM, ?_⟩
  · rw [addExcludedTags_eq]
    rfl
  · rw [addExcludedMethods_eq]
    rfl
  · rw [removeExcludedTags_present ts t ex curT hce hts]
    rfl
  · intro x
    simp [List.mem_filter]
  · rw [removeExcludedMethods_present ms t ex curM hce hms]
    rfl
  · intro x
    simp [List.mem_filter]

/-- Witness for C7 at concrete inputs: adding a tag to the empty policy
yields that tag, and removing the only tag from a configured policy leaves
the empty list. -/
theorem claim_C7_witness :
    (addExcludedTags [("t")] stateZero).currentExclude.bind (fun e => e.tags) = some [("t")]
    ∧ (removeExcludedTags [("t")] stateFull).currentExclude.bind (fun e => e.tags) = some [] := by
  have h := claim_C7 [("t")] [("m")] stateZero stateFull [("t")] [("get")] (by decide) (by decide)
  exact ⟨h.1, h.2.2.1⟩

/-- Counterexample for C8 as stated: a prior scalar path entry that is the
empty string is JavaScript-falsy, so addExcludedPaths drops it instead of
treating it as a one-element list; the prior entry is not preserved. -/
theorem claim_C8_cex :
    (addExcludedPaths [PathEntry.lit ("/x")]
        (setExclusion (some { paths := some (PathsField.one (PathEntry.lit (""))), tags := none, methods := none }) stateZero)).currentExclude =
      some { paths := some (PathsField.many [PathEntry.lit ("/x")]), tags := none, methods := none }
    ∧ PathEntry.lit ("") ∉ [PathEntry.lit ("/x")] := by
  decide

/-- C8 (amended): addExcludedPaths appends the given values to the
normalised prior path list, creating the list when the policy or list is
absent, preserving prior entries and their order, treating a prior truthy
scalar as a one-element list (the falsy empty-string scalar is dropped);
every call invalidates the cache and leaves the other two dimensions
unchanged. -/
theorem claim_C8 (vs : List PathEntry) (s t : PluginState) (e : PathEntry)
    (hs : t.currentExclude.bind (fun x => x.paths) = some (.one e))
    (he : pathsTruthy (some (.one e)) = true) :
    ((addExcludedPaths vs s).currentExclude.bind (fun x => x.paths) =
        some (.many (pathsToList (s.currentExclude.bind (fun x => x.paths)) ++ vs)))
    ∧ (addExcludedPaths vs s).cachedSchema = none
    ∧ (addExcludedPaths vs s).totalRoutes = 0
    ∧ (addExcludedPaths vs s).currentExclude.isSome = true
    ∧ ((addExcludedPaths vs s).currentExclude.bind (fun x => x.tags) =
        s.currentExclude.bind (fun x => x.tags))
    ∧ ((addExcludedPaths vs s).currentExclude.bind (fun x => x.methods) =
        s.currentExclude.bind (fun x => x.methods))
    ∧ ((addExcludedPaths vs t).currentExclude.bind (fun x => x.paths) =
        some (.many (e :: vs))) := by
  refine ⟨?_, ?_, ?_, ?_, ?_, ?_, ?_⟩
  · rw [addExcludedPaths_eq]
    rfl
  · rw [addExcludedPaths_eq]
  · rw [addExcludedPaths_eq]
  · rw [addExcludedPaths_eq]
    rfl
  · rw [addExcludedPaths_eq]
    rfl
  · rw [addExcludedPaths_eq]
    rfl
  · rw [addExcludedPaths_eq, hs]
    simp [pathsToList, he]

/-- Witness for C8 at a concrete input: a truthy scalar prior entry is
normalised to a one-element list and the given value is appended after it. -/
theorem claim_C8_witness :
    (addExcludedPaths [PathEntry.lit ("/x")]
        (setExclusion (some { paths := some (PathsField.one (PathEntry.lit ("/s"))), tags := none, methods := none }) stateZero)).currentExclude.bind (fun x => x.paths) =
      some (PathsField.many [PathEntry.lit ("/s"), PathEntry.lit ("/x")]) :=
  (claim_C8 [PathEntry.lit ("/x")] stateZero
    (setExclusion (some { paths := some (PathsField.one (PathEntry.lit ("/s"))), tags := none, methods := none }) stateZero)
    (PathEntry.lit ("/s")) (by decide) (by decide)).2.2.2.2.2.2

theorem olookup_append {V : Type} (l1 l2 : List (String × V)) (k : String) :
    olookup (l1 ++ l2) k = ofirst (olookup l1 k) (olookup l2 k) := by
  induction l1 with
  | nil => rfl
  | cons p l ih =>
    by_cases hp : p.1 = k <;> simp [olookup, hp, ih, ofirst]

theorem olookup_map_override {V : Type} (a b : List (String × V)) (k : String) :
    olookup (a.map (fun p => (p.1, (olookup b p.1).getD p.2))) k =
      (olookup a k).map (fun v => (olookup b k).getD v) := by
  induction a with
  | nil => rfl
  | cons p a ih =>
    by_cases hp : p.1 = k
    · simp [olookup, hp]
    · simp [olookup, hp, ih]

theorem olookup_filter_none {V : Type} (a b : List (String × V)) (k : String) :
    olookup (b.filter (fun p => (olookup a p.1).isNone)) k =
      if (olookup a k).isSome then none else olookup b k := by
  induction b with
  | nil => by_cases h : (olookup a k).isSome <;> simp [olookup, h]
  | cons p b ih =>
    rw [List.filter_cons]
    by_cases hk : p.1 = k
    · cases ho : olookup a k with
      | some w =>
        rw [hk, ho]
        simp only [Option.isNone_some, Bool.false_eq_true, if_false]
        rw [ih, ho]
        simp
      | none =>
        rw [hk, ho]
        simp [olookup, ho, hk]
    · cases hn : (olookup a p.1).isNone
      · simp only [Bool.false_eq_true, if_false]
        rw [ih]
        by_cases hs : (olookup a k).isSome = true <;> simp [hs, olookup, hk]
      · simp only [if_true]
        rw [olookup]
        simp only [beq_iff_eq, hk, if_false]
        rw [ih]
        by_cases hs : (olookup a k).isSome = true <;> simp [hs, olookup, hk]

theorem olookup_omerge {V : Type} (a b : List (String × V)) (k : String) :
    olookup (omerge a b) k = ofirst (olookup b k) (olookup a k) := by
  unfold omerge
  rw [olookup_append, olookup_map_override, olookup_filter_none]
  cases ho : olookup a k with
  | some v =>
    cases hb : olookup b k <;> simp [ofirst, ho, hb]
  | none =>
    cases hb : olookup b k <;> simp [ofirst, hb]

/-- C9: the assembled document merges converter output with the static
documentation object so that static info fields override the generated
default title, description and version; the static tag list passes through
unchanged when the policy has no tag list and otherwise is filtered to drop
tags whose name is in the excluded-tag list; static path entries take
precedence over converter paths on key collision; and static component
schemas override generated schemas of the same name. -/
theorem claim_C9 (docu : Documentation) (ex ex0 : Option Exclude)
    (cp : List (String × PathItem)) (cs : List (String × String)) (k : String)
    (exTags : List String)
    (h0 : ex0.bind (fun e => e.tags) = none)
    (hex : ex.bind (fun e => e.tags) = some exTags) :
    ((toFullSchema docu ex cp cs).info.title = docu.info.title.getD ("Elysia Documentation"))
    ∧ ((toFullSchema docu ex cp cs).info.description =
        docu.info.description.getD ("Development documentation"))
    ∧ ((toFullSchema docu ex cp cs).info.version = docu.info.version.getD ("0.0.0"))
    ∧ ((toFullSchema docu ex0 cp cs).tags = docu.tags)
    ∧ ((toFullSchema docu ex cp cs).tags =
        docu.tags.map (fun l => l.filter (fun t => !(exTags.contains t.name))))
    ∧ (olookup (toFullSchema docu ex cp cs).paths k =
        ofirst (olookup docu.paths k) (olookup cp k))
    ∧ (olookup (toFullSchema docu ex cp cs).schemas k =
        ofirst (olookup docu.componentsSchemas k) (olookup cs k)) := by
  refine ⟨rfl, rfl, rfl, ?_, ?_, ?_, ?_⟩
  · simp only [toFullSchema]
    rw [h0]
  · simp only [toFullSchema]
    rw [hex]
  · simp only [toFullSchema]
    exact olookup_omerge cp docu.paths k
  · simp only [toFullSchema]
    exact olookup_omerge cs docu.componentsSchemas k

/-- Witness for C9 at a concrete input: with no tag exclusion the static
tag list passes through, and with a configured tag list the static list is
filtered by name. -/
theorem claim_C9_witness :
    (toFullSchema docuDef none [] []).tags = none
    ∧ (toFullSchema docuDef (some exFull) [] []).tags = none := by
  have h := claim_C9 docuDef (some exFull) none [] [] ("k") [("t")] (by decide) (by decide)
  exact ⟨h.2.2.2.1, h.2.2.2.2.1⟩

/-- C10: calling addExcludedPaths, addExcludedTags or addExcludedMethods
with zero arguments is not a no-op: the policy record becomes present (so
getExclusion no longer returns undefined), the corresponding list becomes a
present fresh list with the prior normalised content, the cache is
invalidated, and on a state with no policy the call changes the state. -/
theorem claim_C10 (s t : PluginState) (ht : t.currentExclude = none) :
    ((addExcludedPaths [] s).currentExclude.isSome = true)
    ∧ ((addExcludedTags [] s).currentExclude.isSome = true)
    ∧ ((addExcludedMethods [] s).currentExclude.isSome = true)
    ∧ ((getExclusion (addExcludedPaths [] t)).isSome = true)
    ∧ ((addExcludedPaths [] s).cachedSchema = none ∧ (addExcludedPaths [] s).totalRoutes = 0)
    ∧ ((addExcludedTags [] s).cachedSchema = none ∧ (addExcludedTags [] s).totalRoutes = 0)
    ∧ ((addExcludedMethods [] s).cachedSchema = none ∧ (addExcludedMethods [] s).totalRoutes = 0)
    ∧ ((addExcludedPaths [] s).currentExclude.bind (fun x => x.paths) =
        some (.many (pathsToList (s.currentExclude.bind (fun x => x.paths)))))
    ∧ ((addExcludedTags [] s).currentExclude.bind (fun x => x.tags) =
        some ((s.currentExclude.bind (fun x => x.tags)).getD []))
    ∧ ((addExcludedMethods [] s).currentExclude.bind (fun x => x.methods) =
        some ((s.currentExclude.bind (fun x => x.methods)).getD []))
    ∧ (addExcludedPaths [] t ≠ t) ∧ (addExcludedTags [] t ≠ t) ∧ (addExcludedMethods [] t ≠ t) := by
  have hxp : (addExcludedPaths [] t).currentExclude.isSome = true := by
    rw [addExcludedPaths_eq]
    rfl
  have hxt : (addExcludedTags [] t).currentExclude.isSome = true := by
    rw [addExcludedTags_eq]
    rfl
  have hxm : (addExcludedMethods [] t).currentExclude.isSome = true := by
    rw [addExcludedMethods_eq]
    rfl
  refine ⟨?_, ?_, ?_, hxp, ⟨?_, ?_⟩, ⟨?_, ?_⟩, ⟨?_, ?_⟩, ?_, ?_, ?_, ?_, ?_, ?_⟩
  · rw [addExcludedPaths_eq]
    rfl
  · rw [addExcludedTags_eq]
    rfl
  · rw [addExcludedMethods_eq]
    rfl
  · rw [addExcludedPaths_eq]
  · rw [addExcludedPaths_eq]
  · rw [addExcludedTags_eq]
  · rw [addExcludedTags_eq]
  · rw [addExcludedMethods_eq]
  · rw [addExcludedMethods_eq]
  · rw [addExcludedPaths_eq]
    simp
  · rw [addExcludedTags_eq]
    simp
  · rw [addExcludedMethods_eq]
    simp
  · intro heq
    rw [heq, ht] at hxp
    simp at hxp
  · intro heq
    rw [heq, ht] at hxt
    simp at hxt
  · intro heq
    rw [heq, ht] at hxm
    simp at hxm

/-- Witness for C10 at a concrete input: after a zero-argument add on the
initial state, getExclusion returns a present record and the state differs
from the original. -/
theorem claim_C10_witness :
    (getExclusion (addExcludedPaths [] stateZero)).isSome = true
    ∧ addExcludedTags [] stateZero ≠ stateZero := by
  obtain ⟨a1, a2, a3, a4, a5, a6, a7, a8, a9, a10, a11, a12, a13⟩ :=
    claim_C10 stateZero stateZero rfl
  exact ⟨a4, a12⟩
